import Mathlib

/-!
# Verification of the COVID-19 vaccination dashboard's data logic

A shallow embedding of the data-handling logic of `app.py`: the synthetic
data generator `generate_vaccination_data`, the stubbed fetch
`fetch_real_vaccination_data`, the date/country filtering in `main`, the
last-record-per-country aggregate, the CSV export, and the Global Map's
randomly generated geographic data.

Python floats are modelled as rationals (`ℚ`), integers as `ℤ`/`ℕ`, and the
program's random draws (`np.random.normal`, `np.random.randint`,
`np.random.uniform`, `np.random.choice`) are passed in explicitly: a theorem
quantifies over the draws, with the support of each underlying distribution
as a hypothesis where needed.  `np.random.choice` with a probability vector
is modelled by inverse-CDF sampling from one uniform draw in `[0,1)`.
-/

/-- One row of the generated table: the columns of the `data.append({...})`
dict in `generate_vaccination_data` (`app.py`, lines 145–153).  `Date` is a
day number (the code's timestamps step in whole days). -/
structure Record where
  Date : ℤ
  Country : String
  Fully_Vaccinated_Percentage : ℚ
  Partially_Vaccinated_Percentage : ℚ
  Doses_Administered : ℤ
  Daily_Vaccinations : ℤ
  Vaccine_Type : String
deriving DecidableEq, Repr

/-- The fixed country list of `generate_vaccination_data` (lines 120–121). -/
def countries : List String :=
  ["USA", "India", "Brazil", "UK", "Germany", "Japan",
   "France", "Italy", "Canada", "Australia", "South Africa", "Mexico"]

/-- The vaccine-type categories of the `np.random.choice` call (line 152). -/
def vaccineTypes : List String :=
  ["Pfizer", "Moderna", "AstraZeneca", "Sinovac", "Johnson&Johnson"]

/-- The probability vector `p=[0.4, 0.3, 0.15, 0.1, 0.05]` of that call. -/
def vaccineProbs : List ℚ := [2/5, 3/10, 3/20, 1/10, 1/20]

/-- `np.random.choice(vaccineTypes, p=vaccineProbs)` by inverse-CDF sampling:
`u` is a uniform draw in `[0,1)`, the cut points `0.4, 0.7, 0.85, 0.95` are
the running sums of `vaccineProbs`. -/
def vaccineChoice (u : ℚ) : String :=
  if u < 2/5 then "Pfizer"
  else if u < 7/10 then "Moderna"
  else if u < 17/20 then "AstraZeneca"
  else if u < 19/20 then "Sinovac"
  else "Johnson&Johnson"

/-- The random draws one inner-loop iteration of `generate_vaccination_data`
consumes (lines 139–152): `noise = np.random.normal(0, 2)`,
`partAdd = np.random.randint(5, 15)`, `doses = int(np.random.uniform(100000,
10000000))`, `daily = int(np.random.uniform(5000, 500000))`, and `vaccineU`
the uniform `[0,1)` draw behind `np.random.choice`. -/
structure RowDraws where
  noise : ℚ
  partAdd : ℤ
  doses : ℤ
  daily : ℤ
  vaccineU : ℚ

/-- The draws one outer-loop iteration consumes: `baseDraw` is the
`np.random.randint(60, 85)` base rate used when the country is none of USA,
India, Brazil (line 133), `row i` the draws of day `i`. -/
structure CountryDraws where
  baseDraw : ℤ
  row : ℕ → RowDraws

/-- The supports of the distributions each draw comes from:
`np.random.randint(lo, hi)` is uniform on `lo ≤ x < hi` (`hi` exclusive), the
uniform `[0,1)` draw satisfies `0 ≤ u < 1`; the Gaussian noise has full
support so it is unconstrained. -/
def DrawsOK (g : String → CountryDraws) : Prop :=
  ∀ c i, 5 ≤ ((g c).row i).partAdd ∧ ((g c).row i).partAdd < 15 ∧
    0 ≤ ((g c).row i).vaccineU ∧ ((g c).row i).vaccineU < 1 ∧
    60 ≤ (g c).baseDraw ∧ (g c).baseDraw < 85

/-- The support of `np.random.randint(lo, hi)`: the integers `lo ≤ x < hi`
(numpy's `high` bound is exclusive). -/
def randintSupport (lo hi : ℤ) : Finset ℤ := Finset.Ico lo hi

/-- The per-country base rate (lines 126–133): constants for USA, India and
Brazil, the `np.random.randint(60, 85)` draw `d` otherwise. -/
def baseRate (country : String) (d : ℤ) : ℚ :=
  if country = "USA" then 75
  else if country = "India" then 65
  else if country = "Brazil" then 70
  else (d : ℚ)

/-- Number of dates `pd.date_range(start=end_date - 365 days, end=end_date,
freq='D')` yields (lines 115–117): both endpoints are included, so a span of
365 days gives 366 daily timestamps. -/
def numDays : ℕ := 366

/-- `start_date = end_date - timedelta(days=365)` (line 116). -/
def windowStart (today : ℤ) : ℤ := today - 365

/-- One appended row (lines 135–153): `trend = days_from_start * 0.1`,
`fully = min(95, base_rate + trend + noise)`,
`partially = min(100, fully + randint(5, 15))`, and the stored columns clamp
both at 0 with `max(0, ...)`. -/
def mkRecord (startDay : ℤ) (country : String) (base : ℚ) (i : ℕ)
    (d : RowDraws) : Record :=
  let trend : ℚ := (i : ℚ) * (1/10)
  let fully : ℚ := min 95 (base + trend + d.noise)
  let partly : ℚ := min 100 (fully + (d.partAdd : ℚ))
  { Date := startDay + i
    Country := country
    Fully_Vaccinated_Percentage := max 0 fully
    Partially_Vaccinated_Percentage := max 0 partly
    Doses_Administered := d.doses
    Daily_Vaccinations := d.daily
    Vaccine_Type := vaccineChoice d.vaccineU }

/-- `generate_vaccination_data` (lines 111–156): one row per country and per
date of the trailing window, anchored at `today`; `g` supplies the random
draws. -/
def generate_vaccination_data (today : ℤ) (g : String → CountryDraws) :
    List Record :=
  countries.flatMap fun c =>
    (List.range numDays).map fun i =>
      mkRecord (windowStart today) c (baseRate c (g c).baseDraw) i ((g c).row i)

/-- The (country, date) key of a row: the claim "one row per (country, day)
pair" is that these keys are distinct and cover the full product. -/
def recordKey (r : Record) : String × ℤ := (r.Country, r.Date)

/-- Claim C4's own wording of the partially-vaccinated formula, written from
the spec sentence (not from the code, which clamps at 0 *after* the
`min(100, ...)`): `partially = min(100, fully + uniform_random[5,15))` with
`fully` the clamped `fully_vaccinated_pct` value. -/
def specPartially (base : ℚ) (i : ℕ) (noise : ℚ) (r : ℤ) : ℚ :=
  min 100 (max 0 (min 95 (base + (i : ℚ) * (1/10) + noise)) + (r : ℚ))

/-- Result of `fetch_real_vaccination_data`: the returned table, and whether
the `except` branch's `st.warning` fired. -/
structure FetchResult where
  table : List Record
  warned : Bool
deriving DecidableEq

/-- The body of the `try:` block (lines 161–168).  The real-API code is
commented out in the source; the active body just returns the generated
table, hence always `Except.ok`. -/
def fetchAttempt (today : ℤ) (g : String → CountryDraws) :
    Except String (List Record) :=
  Except.ok (generate_vaccination_data today g)

/-- The `try/except` of `fetch_real_vaccination_data` as a handler over the
attempt's outcome: an exception is caught, a warning emitted, and the
generated table substituted (lines 169–171). -/
def fetchHandler (today : ℤ) (g : String → CountryDraws) :
    Except String (List Record) → FetchResult
  | Except.ok t => ⟨t, false⟩
  | Except.error _ => ⟨generate_vaccination_data today g, true⟩

/-- `fetch_real_vaccination_data` (lines 159–171). -/
def fetch_real_vaccination_data (today : ℤ) (g : String → CountryDraws) :
    FetchResult :=
  fetchHandler today g (fetchAttempt today g)

/-- The country filter of `main` (lines 251–252):
`if 'All Countries' not in selected_countries and selected_countries:
df = df[df['Country'].isin(selected_countries)]` — skipped when the sentinel
is selected or the selection is empty. -/
def applyCountryFilter (t : List Record) (sel : List String) : List Record :=
  if "All Countries" ∉ sel ∧ sel ≠ [] then
    t.filter fun r => decide (r.Country ∈ sel)
  else t

/-- The date filter of `main` (lines 255–256): inclusive bounds on both
sides, `(df['Date'].dt.date >= start_date) & (df['Date'].dt.date <=
end_date)`. -/
def applyDateFilter (t : List Record) (a b : ℤ) : List Record :=
  t.filter fun r => decide (a ≤ r.Date) && decide (r.Date ≤ b)

/-- `df_filtered` (lines 251–256): country filter, then date filter. -/
def filterData (t : List Record) (sel : List String) (a b : ℤ) : List Record :=
  applyDateFilter (applyCountryFilter t sel) a b

/-- Date order on rows, the key of `sort_values('Date')`. -/
def dateLE (r s : Record) : Prop := r.Date ≤ s.Date

instance : DecidableRel dateLE :=
  fun r s => inferInstanceAs (Decidable (r.Date ≤ s.Date))

instance : IsTotal Record dateLE :=
  ⟨fun r s => Int.le_total r.Date s.Date⟩

instance : IsTrans Record dateLE :=
  ⟨fun _ _ _ h1 h2 => le_trans h1 h2⟩

/-- `df_filtered.sort_values('Date')` (line 330), modelled by a comparison
sort on the date key.  (pandas' sort kind only affects the order of rows with
equal dates, which the proved properties do not depend on.) -/
def sortByDate (t : List Record) : List Record := List.insertionSort dateLE t

/-- `sort_values('Date').groupby('Country').last()` for one country `c`
(line 330): the last row of `c`'s group in date-sorted order. -/
def lastPerCountry (t : List Record) (c : String) : Option Record :=
  ((sortByDate t).filter fun r => decide (r.Country = c)).getLast?

/-- Split a character list at every occurrence of `sep` (the parse side of
CSV: fields between commas, lines between newlines). -/
def splitOnChar (sep : Char) : List Char → List (List Char)
  | [] => [[]]
  | c :: cs =>
    let r := splitOnChar sep cs
    if c = sep then [] :: r else (c :: r.headI) :: r.tail

/-- Join character lists with `sep` between them (the serialize side). -/
def joinChar (sep : Char) : List (List Char) → List Char
  | [] => []
  | [f] => f
  | f :: rest => f ++ sep :: joinChar sep rest

/-- `DataFrame.to_csv(index=False)` on a cell matrix (header row included):
rows joined by newlines, cells by commas. -/
def toCsvChars (rows : List (List (List Char))) : List Char :=
  joinChar '\n' (rows.map (joinChar ','))

/-- Parsing CSV text back into its cell matrix. -/
def parseCsvChars (s : List Char) : List (List (List Char)) :=
  (splitOnChar '\n' s).map (splitOnChar ',')

/-- Decimal digits of a natural number, most significant first. -/
def natChars (n : ℕ) : List Char :=
  if h : n < 10 then [Nat.digitChar n]
  else natChars (n / 10) ++ [Nat.digitChar (n % 10)]
decreasing_by exact Nat.div_lt_self (by omega) (by norm_num)

/-- Decimal rendering of an integer cell. -/
def intChars (z : ℤ) : List Char :=
  if z < 0 then '-' :: natChars z.natAbs else natChars z.natAbs

/-- Exact rendering of a rational cell as numerator/denominator.  (pandas
renders floats in decimal; the model's rendering is exact, which is what the
round-trip identity is about.) -/
def ratChars (q : ℚ) : List Char :=
  intChars q.num ++ '/' :: natChars q.den

/-- The CSV cells of one row, in the table's column order. -/
def recordCells (r : Record) : List (List Char) :=
  [intChars r.Date, r.Country.data,
   ratChars r.Fully_Vaccinated_Percentage,
   ratChars r.Partially_Vaccinated_Percentage,
   intChars r.Doses_Administered, intChars r.Daily_Vaccinations,
   r.Vaccine_Type.data]

/-- The header row `to_csv` writes: the column names. -/
def headerCells : List (List Char) :=
  ["Date".data, "Country".data, "Fully_Vaccinated_Percentage".data,
   "Partially_Vaccinated_Percentage".data, "Doses_Administered".data,
   "Daily_Vaccinations".data, "Vaccine_Type".data]

/-- The cell matrix of `df_filtered.to_csv(index=False)` (line 648): header
then one row per record. -/
def csvRows (t : List Record) : List (List (List Char)) :=
  headerCells :: t.map recordCells

/-- The exported CSV text (as characters) of the download action
(lines 648–655). -/
def exportCsv (t : List Record) : List Char := toCsvChars (csvRows t)

/-- The random draws one Global Map row consumes (lines 410–416):
`np.random.randint(50, 95)`, `np.random.uniform(-50, 70)`,
`np.random.uniform(-180, 180)`, `np.random.randint(1000000, 1000000000)`. -/
structure GeoDraw where
  fully : ℤ
  lat : ℚ
  lon : ℚ
  doses : ℤ
deriving DecidableEq

/-- One row of the Global Map's `geo_df` (lines 410–416). -/
structure GeoRow where
  Country : String
  Fully_Vaccinated : ℤ
  Lat : ℚ
  Lon : ℚ
  Doses_Administered : ℤ
deriving DecidableEq

/-- The Global Map's own country list `countries_geo` (lines 405–406). -/
def countries_geo : List String :=
  ["USA", "India", "Brazil", "United Kingdom", "Germany",
   "Japan", "France", "Italy", "Canada", "Australia"]

/-- The Global Map's `geo_data` construction (lines 404–418).  `t`, `sel`,
`a`, `b` are the filtered table and the active filters in scope in `main` at
this render; the loop body reads none of them — every plotted value comes
from the fresh draws `g`, one `GeoDraw` per position in `countries_geo`. -/
def globalMapData (t : List Record) (sel : List String) (a b : ℤ)
    (g : ℕ → GeoDraw) : List GeoRow :=
  countries_geo.enum.map fun p =>
    { Country := p.2
      Fully_Vaccinated := (g p.1).fully
      Lat := (g p.1).lat
      Lon := (g p.1).lon
      Doses_Administered := (g p.1).doses }

/-- A fixed draw assignment used to instantiate theorems at a concrete
input: every day's draws are `noise = 0`, `partAdd = 7`, mid-range doses and
daily counts, `vaccineU = 0`; every country's `baseDraw` is 70. -/
def constG : String → CountryDraws :=
  fun _ => ⟨70, fun _ => ⟨0, 7, 500000, 20000, 0⟩⟩

/-- A draw assignment with an extreme (but possible) Gaussian noise of
`-100` on every day, exhibiting the clamp-order difference between the code
and claim C4's formula. -/
def cexG : String → CountryDraws :=
  fun _ => ⟨70, fun _ => ⟨-100, 5, 500000, 20000, 0⟩⟩

/-- The constant draws satisfy the distribution supports. -/
theorem constG_ok : DrawsOK constG := by
  intro c i
  refine ⟨?_, ?_, ?_, ?_, ?_, ?_⟩ <;> norm_num [constG]

/-- C6: `fetch_real_vaccination_data` never propagates an exception (its
result type is a plain table, it is total), in every execution its table is
exactly the generator's output with no warning, and on any failing attempt
the handler catches the error, warns, and substitutes the generated
table. -/
theorem fetch_fallback_to_generated (today : ℤ) (g : String → CountryDraws) :
    (fetch_real_vaccination_data today g).table =
        generate_vaccination_data today g ∧
      (fetch_real_vaccination_data today g).warned = false ∧
      ∀ e, fetchHandler today g (Except.error e) =
        ⟨generate_vaccination_data today g, true⟩ :=
  ⟨rfl, rfl, fun _ => rfl⟩

/-- Membership in the generated table: a row is exactly one `mkRecord` for a
country of the list and a day index of the window. -/
theorem mem_generate (today : ℤ) (g : String → CountryDraws) (r : Record) :
    r ∈ generate_vaccination_data today g ↔
      ∃ c, c ∈ countries ∧ ∃ i, i < numDays ∧
        r = mkRecord (windowStart today) c (baseRate c (g c).baseDraw) i
          ((g c).row i) := by
  simp only [generate_vaccination_data, List.mem_flatMap, List.mem_map,
    List.mem_range, eq_comm]

/-- C1: every generated row has `0 ≤ Fully ≤ 95` and
`Fully ≤ Partially ≤ 100`. -/
theorem generated_percentages_bounded (today : ℤ) (g : String → CountryDraws)
    (hg : DrawsOK g) :
    ∀ r ∈ generate_vaccination_data today g,
      0 ≤ r.Fully_Vaccinated_Percentage ∧
      r.Fully_Vaccinated_Percentage ≤ 95 ∧
      r.Fully_Vaccinated_Percentage ≤ r.Partially_Vaccinated_Percentage ∧
      r.Partially_Vaccinated_Percentage ≤ 100 := by
  intro r hr
  obtain ⟨c, _, i, _, rfl⟩ := (mem_generate today g r).mp hr
  obtain ⟨hp5, -, -, -, -, -⟩ := hg c i
  have hp0 : (0 : ℚ) ≤ (((g c).row i).partAdd : ℚ) := by
    exact_mod_cast le_trans (by norm_num) hp5
  simp only [mkRecord]
  refine ⟨le_max_left _ _, max_le (by norm_num) (min_le_left _ _), ?_,
    max_le (by norm_num) (min_le_left _ _)⟩
  apply max_le_max le_rfl
  apply le_min
  · exact le_trans (min_le_left _ _) (by norm_num)
  · exact le_add_of_nonneg_right hp0

/-- C1 witness: the bound theorem applied to the concrete draw assignment
`constG` at `today = 0`. -/
theorem generated_percentages_bounded_witness :
    DrawsOK constG ∧
      ∀ r ∈ generate_vaccination_data 0 constG,
        0 ≤ r.Fully_Vaccinated_Percentage ∧
        r.Fully_Vaccinated_Percentage ≤ 95 ∧
        r.Fully_Vaccinated_Percentage ≤ r.Partially_Vaccinated_Percentage ∧
        r.Partially_Vaccinated_Percentage ≤ 100 :=
  ⟨constG_ok, generated_percentages_bounded 0 constG constG_ok⟩

/-- The (country, date) keys of the generated table, written directly as a
product of the country list and the day range. -/
theorem generate_keys (today : ℤ) (g : String → CountryDraws) :
    (generate_vaccination_data today g).map recordKey =
      countries.flatMap fun c =>
        (List.range numDays).map fun (i : ℕ) =>
          (c, windowStart today + (i : ℤ)) := by
  simp only [generate_vaccination_data, List.map_flatMap, List.map_map]
  rfl

/-- C3: the generated table has exactly `countries × days` rows — 12
countries, 366 dates in the inclusive trailing 365-day window — and the
(country, date) keys are pairwise distinct and cover exactly the product, so
there is one row per (country, day) pair. -/
theorem generated_rowcount (today : ℤ) (g : String → CountryDraws) :
    (generate_vaccination_data today g).length = countries.length * numDays ∧
      countries.length = 12 ∧ numDays = 366 ∧
      ((generate_vaccination_data today g).map recordKey).Nodup ∧
      ∀ c d, (c, d) ∈ (generate_vaccination_data today g).map recordKey ↔
        (c ∈ countries ∧ ∃ i : ℕ, i < numDays ∧
          d = windowStart today + (i : ℤ)) := by
  refine ⟨?_, by decide, by decide, ?_, ?_⟩
  · rw [generate_vaccination_data, List.length_flatMap]
    rw [List.sum_eq_card_nsmul _ numDays ?all, List.length_map, smul_eq_mul]
    case all =>
      intro x hx
      obtain ⟨c, -, rfl⟩ := List.mem_map.mp hx
      simp
  · rw [generate_keys, List.nodup_flatMap]
    constructor
    · intro c _
      apply List.Nodup.map _ (List.nodup_range numDays)
      intro i j hij
      have : ((i : ℤ)) = (j : ℤ) := by
        have := (Prod.mk.injEq _ _ _ _).mp hij
        omega
      exact_mod_cast this
    · have hnd : countries.Nodup := by decide
      refine hnd.imp ?_
      intro c c' hne x hx hx'
      obtain ⟨i, -, rfl⟩ := List.mem_map.mp hx
      obtain ⟨j, -, hj⟩ := List.mem_map.mp hx'
      exact hne ((Prod.mk.injEq _ _ _ _).mp hj.symm).1
  · intro c d
    rw [generate_keys]
    simp only [List.mem_flatMap, List.mem_map, List.mem_range, Prod.mk.injEq]
    constructor
    · rintro ⟨c', hc', i, hi, rfl, rfl⟩
      exact ⟨hc', i, hi, rfl⟩
    · rintro ⟨hc, i, hi, rfl⟩
      exact ⟨c, hc, i, hi, rfl, rfl⟩

/-- C2: the filtering step is exact.  Every surviving row has its date in
the inclusive range; for a non-empty selection without the 'All Countries'
sentinel a row survives iff it is a table row whose country is selected and
whose date is in range; with the sentinel selected the country filter is a
no-op and only the date filter acts. -/
theorem filter_exact (t : List Record) (sel : List String) (a b : ℤ) :
    (∀ r ∈ filterData t sel a b, a ≤ r.Date ∧ r.Date ≤ b) ∧
      ("All Countries" ∉ sel → sel ≠ [] →
        ∀ r, r ∈ filterData t sel a b ↔
          r ∈ t ∧ r.Country ∈ sel ∧ a ≤ r.Date ∧ r.Date ≤ b) ∧
      ("All Countries" ∈ sel →
        filterData t sel a b = applyDateFilter t a b) := by
  refine ⟨?_, ?_, ?_⟩
  · intro r hr
    have := (List.mem_filter.mp hr).2
    simp only [Bool.and_eq_true, decide_eq_true_eq] at this
    exact this
  · intro hs hne r
    rw [filterData, applyCountryFilter, if_pos ⟨hs, hne⟩]
    simp only [applyDateFilter, List.mem_filter, Bool.and_eq_true,
      decide_eq_true_eq]
    tauto
  · intro hs
    rw [filterData, applyCountryFilter, if_neg]
    intro h
    exact h.1 hs

/-- C9: an empty country selection skips the country filter entirely: it is
the identity on the table, filtering with an empty selection equals
filtering with the 'All Countries' sentinel, and every table row whose date
is in range survives, whatever its country. -/
theorem empty_selection_no_op (t : List Record) (a b : ℤ) :
    applyCountryFilter t [] = t ∧
      filterData t [] a b = filterData t ["All Countries"] a b ∧
      ∀ r ∈ t, a ≤ r.Date → r.Date ≤ b → r ∈ filterData t [] a b := by
  have h1 : applyCountryFilter t [] = t := by
    rw [applyCountryFilter, if_neg]
    intro h
    exact h.2 rfl
  have h2 : applyCountryFilter t ["All Countries"] = t := by
    rw [applyCountryFilter, if_neg]
    intro h
    exact h.1 (List.mem_singleton.mpr rfl)
  refine ⟨h1, ?_, ?_⟩
  · rw [filterData, filterData, h1, h2]
  · intro r hr ha hb
    rw [filterData, h1]
    simp only [applyDateFilter, List.mem_filter, Bool.and_eq_true,
      decide_eq_true_eq]
    exact ⟨hr, ha, hb⟩

/-- In a date-sorted list every element's date is at most the last
element's. -/
theorem dateLE_getLast :
    ∀ (l : List Record), List.Sorted dateLE l →
      ∀ x ∈ l, ∀ h : l ≠ [], dateLE x (l.getLast h) := by
  intro l
  induction l with
  | nil => intro _ x hx; cases hx
  | cons a t ih =>
    intro hs x hx h
    rcases List.mem_cons.mp hx with rfl | hxt
    · cases t with
      | nil => exact le_refl _
      | cons b u =>
        rw [List.getLast_cons (List.cons_ne_nil b u)]
        exact (List.sorted_cons.mp hs).1 _ (List.getLast_mem _)
    · cases t with
      | nil => cases hxt
      | cons b u =>
        rw [List.getLast_cons (List.cons_ne_nil b u)]
        exact ih (List.sorted_cons.mp hs).2 x hxt (List.cons_ne_nil b u)

/-- C7: for every country `c` present in the (non-empty) filtered table,
`sort_values('Date').groupby('Country').last()` selects a record of the
table with country `c` whose date is maximal among `c`'s records; when no
two of `c`'s records share a date it is the unique such record. -/
theorem lastPerCountry_is_max (t : List Record) (c : String)
    (hc : ∃ r ∈ t, r.Country = c)
    (hud : ∀ s ∈ t, ∀ s' ∈ t, s.Country = s'.Country → s.Date = s'.Date →
      s = s') :
    ∃ r, lastPerCountry t c = some r ∧ r ∈ t ∧ r.Country = c ∧
      (∀ s ∈ t, s.Country = c → s.Date ≤ r.Date) ∧
      (∀ s ∈ t, s.Country = c → s.Date = r.Date → s = r) := by
  obtain ⟨r0, hr0, hr0c⟩ := hc
  have hperm : (sortByDate t).Perm t := List.perm_insertionSort dateLE t
  have hsorted : List.Sorted dateLE (sortByDate t) :=
    List.sorted_insertionSort dateLE t
  set l := (sortByDate t).filter (fun r => decide (r.Country = c)) with hl
  have hmeml : ∀ s, s ∈ l ↔ s ∈ t ∧ s.Country = c := by
    intro s
    rw [hl, List.mem_filter, hperm.mem_iff]
    simp only [decide_eq_true_eq]
  have hne : l ≠ [] :=
    List.ne_nil_of_mem ((hmeml r0).mpr ⟨hr0, hr0c⟩)
  have hlsorted : List.Sorted dateLE l := hsorted.filter _
  refine ⟨l.getLast hne, ?_, ?_, ?_, ?_, ?_⟩
  · rw [lastPerCountry]
    exact List.getLast?_eq_getLast l hne
  · exact ((hmeml _).mp (List.getLast_mem hne)).1
  · exact ((hmeml _).mp (List.getLast_mem hne)).2
  · intro s hs hsc
    exact dateLE_getLast l hlsorted s ((hmeml s).mpr ⟨hs, hsc⟩) hne
  · intro s hs hsc hsd
    refine hud s hs _ ((hmeml _).mp (List.getLast_mem hne)).1 ?_ hsd
    rw [hsc, ((hmeml _).mp (List.getLast_mem hne)).2]

/-- C7 witness: the aggregate applied to a concrete two-row table, picking
the later record for country "USA". -/
theorem lastPerCountry_is_max_witness :
    (∃ r, lastPerCountry
        [⟨0, "USA", 75, 80, 1, 1, "Pfizer"⟩, ⟨1, "USA", 76, 81, 1, 1, "Pfizer"⟩]
        "USA" = some r ∧
      r ∈ [⟨0, "USA", 75, 80, 1, 1, "Pfizer"⟩,
        ⟨1, "USA", 76, 81, 1, 1, "Pfizer"⟩] ∧ r.Country = "USA" ∧
      (∀ s ∈ [(⟨0, "USA", 75, 80, 1, 1, "Pfizer"⟩ : Record),
        ⟨1, "USA", 76, 81, 1, 1, "Pfizer"⟩], s.Country = "USA" →
          s.Date ≤ r.Date) ∧
      (∀ s ∈ [(⟨0, "USA", 75, 80, 1, 1, "Pfizer"⟩ : Record),
        ⟨1, "USA", 76, 81, 1, 1, "Pfizer"⟩], s.Country = "USA" →
          s.Date = r.Date → s = r)) :=
  lastPerCountry_is_max _ "USA"
    ⟨⟨0, "USA", 75, 80, 1, 1, "Pfizer"⟩, by simp, rfl⟩
    (by decide)

/-- C8: every draw yields one of the five configured vaccine types, and the
inverse-CDF sampler realises exactly the configured probability vector
{0.4, 0.3, 0.15, 0.1, 0.05}: the uniform draws in `[0,1)` mapping to each
type form an interval whose width is that type's probability, the
probabilities sum to 1, and frequency counts over any sample of draws equal
the counts of draws landing in those intervals (so by the law of large
numbers the empirical frequencies converge to the probabilities). -/
theorem vaccine_type_distribution :
    (∀ u : ℚ, vaccineChoice u ∈ vaccineTypes) ∧
      vaccineProbs = [2/5, 3/10, 3/20, 1/10, 1/20] ∧
      vaccineProbs.sum = 1 ∧
      (∀ u : ℚ, 0 ≤ u → u < 0 + 2/5 → vaccineChoice u = "Pfizer") ∧
      (∀ u : ℚ, 0 + 2/5 ≤ u → u < 0 + 2/5 + 3/10 →
        vaccineChoice u = "Moderna") ∧
      (∀ u : ℚ, 0 + 2/5 + 3/10 ≤ u → u < 0 + 2/5 + 3/10 + 3/20 →
        vaccineChoice u = "AstraZeneca") ∧
      (∀ u : ℚ, 0 + 2/5 + 3/10 + 3/20 ≤ u →
        u < 0 + 2/5 + 3/10 + 3/20 + 1/10 → vaccineChoice u = "Sinovac") ∧
      (∀ u : ℚ, 0 + 2/5 + 3/10 + 3/20 + 1/10 ≤ u → u < 1 →
        vaccineChoice u = "Johnson&Johnson") ∧
      (∀ us : List ℚ,
        us.countP (fun u => decide (vaccineChoice u = "Moderna")) =
          us.countP (fun u => decide (2/5 ≤ u ∧ u < 7/10))) := by
  have hmem : ∀ u : ℚ, vaccineChoice u ∈ vaccineTypes := by
    intro u
    rw [vaccineChoice]
    split
    · simp [vaccineTypes]
    · split
      · simp [vaccineTypes]
      · split
        · simp [vaccineTypes]
        · split <;> simp [vaccineTypes]
  refine ⟨hmem, rfl, by norm_num [vaccineProbs], ?_, ?_, ?_, ?_, ?_, ?_⟩
  · intro u h0 h1
    rw [vaccineChoice, if_pos (by linarith)]
  · intro u h0 h1
    rw [vaccineChoice, if_neg (by linarith), if_pos (by linarith)]
  · intro u h0 h1
    rw [vaccineChoice, if_neg (by linarith), if_neg (by linarith),
      if_pos (by linarith)]
  · intro u h0 h1
    rw [vaccineChoice, if_neg (by linarith), if_neg (by linarith),
      if_neg (by linarith), if_pos (by linarith)]
  · intro u h0 h1
    rw [vaccineChoice, if_neg (by linarith), if_neg (by linarith),
      if_neg (by linarith), if_neg (by linarith)]
  · intro us
    apply List.countP_congr
    intro u _
    simp only [decide_eq_true_eq]
    constructor
    · intro h
      rw [vaccineChoice] at h
      split at h
      · exact absurd h (by decide)
      · split at h
        · next h1 h2 => exact ⟨by linarith, h2⟩
        · split at h
          · exact absurd h (by decide)
          · split at h
            · exact absurd h (by decide)
            · exact absurd h (by decide)
    · rintro ⟨h1, h2⟩
      rw [vaccineChoice, if_neg (by linarith), if_pos h2]

/-- Two geographic-draw records with equal components are equal. -/
theorem geoDraw_ext (x y : GeoDraw) (h1 : x.fully = y.fully)
    (h2 : x.lat = y.lat) (h3 : x.lon = y.lon) (h4 : x.doses = y.doses) :
    x = y := by
  cases x
  cases y
  simp_all

/-- C10: the Global Map's plotted data reads nothing from the filtered
table or the active filters — two renders with any tables and filters but
the same draws agree — while two renders with the same table and filters
whose draws differ at some country position produce different map data
(every drawn value is embedded in the output, so equal outputs force equal
draws at every used position). -/
theorem global_map_fresh_random :
    (∀ t t' sel sel' (a a' b b' : ℤ) g,
      globalMapData t sel a b g = globalMapData t' sel' a' b' g) ∧
      (∀ t sel (a b : ℤ) g g',
        globalMapData t sel a b g = globalMapData t sel a b g' →
        ∀ i < countries_geo.length, g i = g' i) ∧
      (∀ t sel (a b : ℤ) g g', (∃ i, i < countries_geo.length ∧ g i ≠ g' i) →
        globalMapData t sel a b g ≠ globalMapData t sel a b g') := by
  have key : ∀ t sel (a b : ℤ) g g',
      globalMapData t sel a b g = globalMapData t sel a b g' →
      ∀ i < countries_geo.length, g i = g' i := by
    intro t sel a b g g' h i hi
    have hlen : i < countries_geo.enum.length := by
      rw [List.enum_length]
      exact hi
    have hrow := congrArg (fun l => l[i]?) h
    simp only [globalMapData, List.getElem?_map] at hrow
    rw [List.getElem?_eq_getElem hlen] at hrow
    simp only [Option.map_some'] at hrow
    have hinj := Option.some.inj hrow
    rw [List.getElem_enum] at hinj
    simp only [GeoRow.mk.injEq] at hinj
    exact geoDraw_ext _ _ hinj.2.1 hinj.2.2.1 hinj.2.2.2.1 hinj.2.2.2.2
  refine ⟨fun _ _ _ _ _ _ _ _ _ => rfl, key, ?_⟩
  rintro t sel a b g g' ⟨i, hi, hne⟩ h
  exact hne (key t sel a b g g' h i hi)

/-- C4 counterexample: at the concrete draws `cexG` (noise `-100`, possible
for a Gaussian), country "USA", day 0, the code stores
`Partially_Vaccinated_Percentage = 0` (it clamps at 0 *after*
`min(100, unclamped_fully + 5)`), while the claim's formula yields 5; and
85, included in the claim's base-rate range `[60,85]`, is outside the
support of `np.random.randint(60, 85)`. -/
theorem generated_rates_formula_cex :
    (mkRecord (windowStart 0) "USA" (baseRate "USA" (cexG "USA").baseDraw) 0
        ((cexG "USA").row 0)).Partially_Vaccinated_Percentage = 0 ∧
      specPartially (baseRate "USA" (cexG "USA").baseDraw) 0
        ((cexG "USA").row 0).noise ((cexG "USA").row 0).partAdd = 5 ∧
      (85 : ℤ) ∈ Finset.Icc (60 : ℤ) 85 ∧
      (85 : ℤ) ∉ randintSupport 60 85 := by
  refine ⟨?_, ?_, by decide, by decide⟩
  · norm_num [mkRecord, cexG, baseRate, windowStart]
  · norm_num [specPartially, cexG, baseRate]

/-- C4 amended: per country one base rate (75 USA, 65 India, 70 Brazil, the
`randint(60, 85)` draw — support `[60,85)` — otherwise) used for all its
days; per day the code computes
`u = min(95, base_rate + 0.1*day_offset + noise)`, stores
`fully = max(0, u)` and `partially = max(0, min(100, u + randint(5,15)))`
(the 0-clamp is applied after the `min`, to the value built from the
unclamped `u`). -/
theorem generated_rates_formula (today : ℤ) (g : String → CountryDraws) :
    (∀ r ∈ generate_vaccination_data today g, ∃ c, c ∈ countries ∧
      ∃ i : ℕ, i < numDays ∧
        r.Fully_Vaccinated_Percentage =
          max 0 (min 95 (baseRate c (g c).baseDraw + (i : ℚ) * (1/10) +
            ((g c).row i).noise)) ∧
        r.Partially_Vaccinated_Percentage =
          max 0 (min 100 (min 95 (baseRate c (g c).baseDraw +
            (i : ℚ) * (1/10) + ((g c).row i).noise) +
              (((g c).row i).partAdd : ℚ)))) ∧
      (∀ d, baseRate "USA" d = 75) ∧
      (∀ d, baseRate "India" d = 65) ∧
      (∀ d, baseRate "Brazil" d = 70) ∧
      (∀ c d, c ≠ "USA" → c ≠ "India" → c ≠ "Brazil" →
        baseRate c d = (d : ℚ)) ∧
      randintSupport 60 85 = Finset.Ico 60 85 := by
  refine ⟨?_, fun d => by simp [baseRate], fun d => by simp [baseRate],
    fun d => by simp [baseRate], ?_, rfl⟩
  · intro r hr
    obtain ⟨c, hc, i, hi, rfl⟩ := (mem_generate today g r).mp hr
    exact ⟨c, hc, i, hi, rfl, rfl⟩
  · intro c d h1 h2 h3
    rw [baseRate, if_neg h1, if_neg h2, if_neg h3]

/-- Splitting never yields an empty field list. -/
theorem splitOnChar_ne_nil (sep : Char) :
    ∀ l : List Char, splitOnChar sep l ≠ [] := by
  intro l
  induction l with
  | nil => simp [splitOnChar]
  | cons c cs ih =>
    rw [splitOnChar]
    split <;> simp

/-- A separator-free field splits to itself alone. -/
theorem splitOnChar_no_sep (sep : Char) :
    ∀ f : List Char, sep ∉ f → splitOnChar sep f = [f] := by
  intro f
  induction f with
  | nil => intro _; rfl
  | cons c cs ih =>
    intro hn
    have hc : c ≠ sep := fun h => hn (h ▸ List.mem_cons_self c cs)
    have hcs : sep ∉ cs := fun h => hn (List.mem_cons_of_mem c h)
    rw [splitOnChar]
    simp only [ih hcs, if_neg hc, List.headI, List.tail]

/-- Splitting after a separator-free prefix peels that prefix off. -/
theorem splitOnChar_append (sep : Char) (t : List Char) :
    ∀ f : List Char, sep ∉ f →
      splitOnChar sep (f ++ sep :: t) = f :: splitOnChar sep t := by
  intro f
  induction f with
  | nil =>
    intro _
    rw [List.nil_append, splitOnChar]
    simp
  | cons c cs ih =>
    intro hn
    have hc : c ≠ sep := fun h => hn (h ▸ List.mem_cons_self c cs)
    have hcs : sep ∉ cs := fun h => hn (List.mem_cons_of_mem c h)
    rw [List.cons_append, splitOnChar]
    simp only [ih hcs, if_neg hc, List.headI, List.tail]

/-- Round trip of one separator level: splitting a join of separator-free
fields recovers the fields. -/
theorem splitOnChar_joinChar (sep : Char) :
    ∀ l : List (List Char), l ≠ [] → (∀ f ∈ l, sep ∉ f) →
      splitOnChar sep (joinChar sep l) = l := by
  intro l
  induction l with
  | nil => intro h; exact absurd rfl h
  | cons f rest ih =>
    intro _ hf
    cases rest with
    | nil =>
      rw [joinChar]
      exact splitOnChar_no_sep sep f (hf f (List.mem_cons_self f []))
    | cons f' rest' =>
      have hj : joinChar sep (f :: f' :: rest') =
          f ++ sep :: joinChar sep (f' :: rest') := rfl
      rw [hj, splitOnChar_append sep _ f (hf f (List.mem_cons_self f _)),
        ih (List.cons_ne_nil f' rest')
          (fun x hx => hf x (List.mem_cons_of_mem f hx))]

/-- A join with a different separator contains no `sep` when no field
does. -/
theorem sep_not_mem_joinChar (sep sep' : Char) (hne : sep ≠ sep') :
    ∀ l : List (List Char), (∀ f ∈ l, sep ∉ f) → sep ∉ joinChar sep' l := by
  intro l
  induction l with
  | nil => intro _; simp [joinChar]
  | cons f rest ih =>
    intro hf
    cases rest with
    | nil => exact hf f (List.mem_cons_self f [])
    | cons f' rest' =>
      have hj : joinChar sep' (f :: f' :: rest') =
          f ++ sep' :: joinChar sep' (f' :: rest') := rfl
      rw [hj]
      intro hmem
      rcases List.mem_append.mp hmem with h1 | h2
      · exact hf f (List.mem_cons_self f _) h1
      · rcases List.mem_cons.mp h2 with h3 | h4
        · exact hne h3
        · exact ih (fun x hx => hf x (List.mem_cons_of_mem f hx)) h4

/-- CSV round trip on a cell matrix: when no cell contains a comma or a
newline and every row has at least one cell, parsing the serialized text
recovers the matrix exactly. -/
theorem parseCsv_toCsv (rows : List (List (List Char)))
    (hrows : rows ≠ []) (hrow : ∀ row ∈ rows, row ≠ [])
    (hcell : ∀ row ∈ rows, ∀ cell ∈ row, ',' ∉ cell ∧ '\n' ∉ cell) :
    parseCsvChars (toCsvChars rows) = rows := by
  rw [toCsvChars, parseCsvChars]
  rw [splitOnChar_joinChar '\n' (rows.map (joinChar ','))
    (by simpa using hrows)
    (by
      intro f hf
      obtain ⟨row, hrowmem, rfl⟩ := List.mem_map.mp hf
      exact sep_not_mem_joinChar '\n' ',' (by decide) row
        (fun cell hcell' => (hcell row hrowmem cell hcell').2))]
  rw [List.map_map]
  have : ∀ row ∈ rows, splitOnChar ',' (joinChar ',' row) = row := by
    intro row hrowmem
    exact splitOnChar_joinChar ',' row (hrow row hrowmem)
      (fun cell hcell' => (hcell row hrowmem cell hcell').1)
  calc rows.map (splitOnChar ',' ∘ joinChar ',')
      = rows.map id := List.map_congr_left (fun row hr => this row hr)
    _ = rows := List.map_id rows

/-- A digit character is neither a comma nor a newline. -/
theorem digitChar_ne (m : ℕ) (hm : m < 10) :
    Nat.digitChar m ≠ ',' ∧ Nat.digitChar m ≠ '\n' := by
  interval_cases m <;> exact ⟨by decide, by decide⟩

/-- Decimal renderings of naturals contain no comma and no newline. -/
theorem natChars_ne (n : ℕ) :
    ∀ c ∈ natChars n, c ≠ ',' ∧ c ≠ '\n' := by
  induction n using Nat.strong_induction_on with
  | _ n ih =>
    intro c hc
    rw [natChars] at hc
    split at hc
    · next h =>
      rw [List.mem_singleton] at hc
      exact hc ▸ digitChar_ne n h
    · next h =>
      rcases List.mem_append.mp hc with h1 | h2
      · exact ih (n / 10) (Nat.div_lt_self (by omega) (by norm_num)) c h1
      · rw [List.mem_singleton] at h2
        exact h2 ▸ digitChar_ne (n % 10) (Nat.mod_lt _ (by norm_num))

/-- Integer renderings contain no comma and no newline. -/
theorem intChars_ne (z : ℤ) : ∀ c ∈ intChars z, c ≠ ',' ∧ c ≠ '\n' := by
  intro c hc
  rw [intChars] at hc
  split at hc
  · rcases List.mem_cons.mp hc with rfl | h
    · exact ⟨by decide, by decide⟩
    · exact natChars_ne _ c h
  · exact natChars_ne _ c hc

/-- Rational renderings contain no comma and no newline. -/
theorem ratChars_ne (q : ℚ) : ∀ c ∈ ratChars q, c ≠ ',' ∧ c ≠ '\n' := by
  intro c hc
  rw [ratChars] at hc
  rcases List.mem_append.mp hc with h1 | h2
  · exact intChars_ne _ c h1
  · rcases List.mem_cons.mp h2 with rfl | h3
    · exact ⟨by decide, by decide⟩
    · exact natChars_ne _ c h3

/-- The cells of a record whose country and vaccine type come from the
program's fixed lists contain no comma and no newline, and the row is
non-empty. -/
theorem recordCells_ok (r : Record) (hco : r.Country ∈ countries)
    (hv : r.Vaccine_Type ∈ vaccineTypes) :
    recordCells r ≠ [] ∧
      ∀ cell ∈ recordCells r, ',' ∉ cell ∧ '\n' ∉ cell := by
  have hstr : ∀ s : String, s ∈ countries ∨ s ∈ vaccineTypes →
      ',' ∉ s.data ∧ '\n' ∉ s.data := by
    intro s hs
    rcases hs with hs | hs <;> fin_cases hs <;> exact ⟨by decide, by decide⟩
  constructor
  · exact List.cons_ne_nil _ _
  · intro cell hcell
    have flip : (∀ c ∈ cell, c ≠ ',' ∧ c ≠ '\n') →
        ',' ∉ cell ∧ '\n' ∉ cell := by
      intro h
      exact ⟨fun hm => (h _ hm).1 rfl, fun hm => (h _ hm).2 rfl⟩
    rw [recordCells] at hcell
    simp only [List.mem_cons, List.not_mem_nil, or_false] at hcell
    rcases hcell with rfl | rfl | rfl | rfl | rfl | rfl | rfl
    all_goals first
      | exact flip (intChars_ne _)
      | exact flip (ratChars_ne _)
      | exact hstr _ (Or.inl hco)
      | exact hstr _ (Or.inr hv)

/-- C5: CSV export round-trip.  For every filtered table whose rows carry a
country of the program's country list and a vaccine type of its fixed
vaccine set (true of every row the generator produces), parsing the
exported CSV text yields exactly the export's cell matrix: the header
columns and every row's values, unchanged. -/
theorem csv_export_roundtrip (t : List Record)
    (h : ∀ r ∈ t, r.Country ∈ countries ∧ r.Vaccine_Type ∈ vaccineTypes) :
    parseCsvChars (exportCsv t) = csvRows t := by
  rw [exportCsv]
  apply parseCsv_toCsv
  · exact List.cons_ne_nil _ _
  · intro row hrowmem
    rcases List.mem_cons.mp hrowmem with rfl | hmem
    · exact List.cons_ne_nil _ _
    · obtain ⟨r, hr, rfl⟩ := List.mem_map.mp hmem
      exact (recordCells_ok r (h r hr).1 (h r hr).2).1
  · intro row hrowmem
    rcases List.mem_cons.mp hrowmem with rfl | hmem
    · intro cell hcell
      fin_cases hcell <;> exact ⟨by decide, by decide⟩
    · obtain ⟨r, hr, rfl⟩ := List.mem_map.mp hmem
      exact (recordCells_ok r (h r hr).1 (h r hr).2).2

/-- C5 witness: the round trip applied to a concrete one-row filtered
table. -/
theorem csv_export_roundtrip_witness :
    (∀ r ∈ [(⟨0, "USA", 75, 80, 1000, 500, "Pfizer"⟩ : Record)],
      r.Country ∈ countries ∧ r.Vaccine_Type ∈ vaccineTypes) ∧
      parseCsvChars (exportCsv [⟨0, "USA", 75, 80, 1000, 500, "Pfizer"⟩]) =
        csvRows [⟨0, "USA", 75, 80, 1000, 500, "Pfizer"⟩] :=
  ⟨by decide, csv_export_roundtrip _ (by decide)⟩
